import Mathlib

/-
Verification of the neighbourhood-generation and activation-propagation
engine of ConfigSpace (src/ConfigSpace/util.py): a shallow embedding of
`impute_inactive_values`, `get_one_exchange_neighbourhood` and
`get_random_neighbor`, together with models of the external collaborators
(Configuration, ConfigurationSpace, hyperparameters, conditions, numpy
RandomState) that the module imports but whose sources are not part of
util.py.  Missing values (Python `None` / `np.NaN`) are `none : Option Int`;
fallible paths return `Except Err`; the two unbounded `while` loops of the
source are embedded with explicit fuel, `Err.diverge` marking fuel
exhaustion (i.e. actual nontermination of the source loop).
-/

set_option maxRecDepth 4000

namespace CSUtil

/-- A raw or encoded parameter value; `none` is the missing sentinel
(Python `None` in raw dictionaries, `np.NaN` in encoded vectors). -/
abbrev Val := Option Int

/-- Modelled from the spec: a seeded numpy `RandomState`.  The generator is
a deterministic stream of raw draws indexed by a counter; every draw
advances the counter.  Only the seeding entry point and `randint` (documented
by numpy as uniform on `[lo, hi)`, high point excluded) are needed. -/
structure RandomState where
  stream : Nat → Nat
  counter : Nat

/-- One raw draw from the stream. -/
def RandomState.next (r : RandomState) : Nat × RandomState :=
  (r.stream r.counter, ⟨r.stream, r.counter + 1⟩)

/-- Modelled from the spec (numpy contract): `randint(lo, hi)` returns an
integer in `[lo, hi)` — the high end is excluded. -/
def RandomState.randint (r : RandomState) (lo hi : Nat) : Nat × RandomState :=
  let (x, r') := r.next
  (lo + x % (hi - lo), r')

/-- Modelled from the spec: `np.random.RandomState(seed)` — a fresh
generator determined by the caller-supplied seed alone. -/
def np_random_RandomState (seed : Nat) : RandomState :=
  ⟨fun k => (seed + 1) * (k + 1) % 2147483647, 0⟩

/-- The neighbor-cardinality classification a hyperparameter reports:
`hp.get_num_neighbors()` is either a finite number or `np.inf`. -/
inductive NumNeighbors where
  | finite (n : Nat)
  | infinite
deriving DecidableEq

/-- Modelled from the spec: the per-parameter capability interface consumed
by util.py — default value (raw domain), encode/decode between raw and
vector domains, neighbor-cardinality classification, and neighbor
generation.  `get_neighbors value rng number transformFlag` returns encoded
values when `transformFlag = false` and raw (decoded) values when
`transformFlag = true`, threading the random generator. -/
structure Hyperparameter where
  name : String
  default : Int
  transform : Int → Int
  inverse_transform : Int → Int
  get_num_neighbors : NumNeighbors
  has_neighbors : Bool
  get_neighbors : Int → RandomState → Option Nat → Bool → List Int × RandomState

/-- Modelled from the spec: a condition gating one parameter.  `parents`
are the names read by its descendant literal conditions; `evaluate` is the
boolean predicate over those (present) parent values. -/
structure ConditionC where
  parents : List String
  evaluate : (String → Int) → Bool

/-- Modelled from the spec: the configuration-space collaborator — the
ordered hyperparameter list, the condition DAG (direct children and gating
conditions by parameter name), and the forbidden-clause check applied
during strict configuration construction. -/
structure ConfigurationSpace where
  hyperparameters : List Hyperparameter
  get_children_of : String → List Hyperparameter
  get_parent_conditions_of : String → List ConditionC
  forbidden : List Val → Bool

/-- Placeholder hyperparameter returned by name/index lookups that miss
(the source would raise a KeyError there; no claim exercises that path). -/
def dummyHp : Hyperparameter :=
  ⟨"", 0, id, id, NumNeighbors.finite 0, false, fun _ r _ _ => ([], r)⟩

/-- Index of a named hyperparameter (`get_idx_by_hyperparameter_name`). -/
def ConfigurationSpace.get_idx_by_hyperparameter_name
    (cs : ConfigurationSpace) (name : String) : Nat :=
  cs.hyperparameters.findIdx (fun hp => hp.name == name)

/-- Lookup of a hyperparameter by name (`get_hyperparameter`). -/
def ConfigurationSpace.get_hyperparameter
    (cs : ConfigurationSpace) (name : String) : Hyperparameter :=
  cs.hyperparameters.getD (cs.get_idx_by_hyperparameter_name name) dummyHp

/-- Name of the hyperparameter at a positional index
(`get_hyperparameter_by_idx`). -/
def ConfigurationSpace.get_hyperparameter_by_idx
    (cs : ConfigurationSpace) (idx : Nat) : String :=
  (cs.hyperparameters.getD idx dummyHp).name

/-- Modelled from the spec: a configuration — an encoded vector indexed by
parameter position, carrying its (read-only) space. -/
structure Configuration where
  configuration_space : ConfigurationSpace
  vector : List Val

/-- The encoded vector (`configuration.get_array()`); an entry is `none`
exactly when the source entry is `np.NaN` (not finite). -/
def Configuration.get_array (c : Configuration) : List Val := c.vector

/-- Number of hyperparameters (`configuration._num_hyperparameters`). -/
def Configuration.num_hyperparameters (c : Configuration) : Nat :=
  c.configuration_space.hyperparameters.length

/-- Raw (decoded) value of a named parameter inside an encoded vector:
the vector entry at the parameter's index, decoded by `transform`. -/
def vectorRaw (cs : ConfigurationSpace) (v : List Val) (name : String) : Val :=
  (v.getD (cs.get_idx_by_hyperparameter_name name) none).map
    (cs.get_hyperparameter name).transform

/-- Raw value of a named parameter (`configuration[name]`). -/
def Configuration.value (c : Configuration) (name : String) : Val :=
  vectorRaw c.configuration_space c.vector name

/-- The canonical parameter-name order (`for hp_name in configuration`). -/
def Configuration.names (c : Configuration) : List String :=
  c.configuration_space.hyperparameters.map (fun hp => hp.name)

/-- Full raw-value mapping (`configuration.get_dictionary()`). -/
def Configuration.get_dictionary (c : Configuration) : List (String × Val) :=
  c.names.map (fun nm => (nm, c.value nm))

/-- Modelled from the spec: whether a named parameter should be active in a
vector — gating is conjunctive, a parameter is active only if every gating
condition has all referenced parents present and evaluates true. -/
def vectorActive (cs : ConfigurationSpace) (v : List Val) (name : String) : Bool :=
  (cs.get_parent_conditions_of name).all (fun cond =>
    cond.parents.all (fun p => (vectorRaw cs v p).isSome) &&
    cond.evaluate (fun p => (vectorRaw cs v p).getD 0))

/-- Modelled from the spec: strict configuration construction from an
encoded vector — `Configuration(space, vector=...)`.  It enforces the
active-iff-value invariant against the condition graph and the
forbidden-clause check, returning `none` (the caught `ValueError`) on
violation. -/
def Configuration.fromVector (cs : ConfigurationSpace) (v : List Val) :
    Option Configuration :=
  if (v.length == cs.hyperparameters.length)
      && cs.hyperparameters.all (fun hp =>
            (v.getD (cs.get_idx_by_hyperparameter_name hp.name) none).isSome
              == vectorActive cs v hp.name)
      && !cs.forbidden v
  then some ⟨cs, v⟩ else none

/-- First value bound to a name in a raw-value association list
(Python dictionary lookup). -/
def lookupVal (values : List (String × Val)) (n : String) : Val :=
  match values.find? (fun e => e.1 == n) with
  | some e => e.2
  | none => none

/-- Binding of a name to a new value in a raw-value association list
(Python dictionary assignment). -/
def updateVal (values : List (String × Val)) (n : String) (v : Val) :
    List (String × Val) :=
  values.map (fun e => if e.1 == n then (e.1, v) else e)

/-- Modelled from the spec: the encoded vector built from a raw-value
mapping — each parameter's raw value encoded by its `inverse_transform`. -/
def buildVector (cs : ConfigurationSpace) (values : List (String × Val)) :
    List Val :=
  cs.hyperparameters.map (fun hp => (lookupVal values hp.name).map hp.inverse_transform)

/-- Modelled from the spec: strict configuration construction from a
raw-value mapping — `Configuration(space, values=...)`. -/
def Configuration.fromValues (cs : ConfigurationSpace)
    (values : List (String × Val)) : Option Configuration :=
  Configuration.fromVector cs (buildVector cs values)

/-- Modelled from the spec: relaxed configuration construction —
`Configuration(space, values=..., allow_inactive_with_values=True)` skips
the activation/forbidden validation entirely. -/
def Configuration.fromValuesRelaxed (cs : ConfigurationSpace)
    (values : List (String × Val)) : Configuration :=
  ⟨cs, buildVector cs values⟩

/-- Errors of the embedded functions: `valueError` is a raised Python
`ValueError` (with its message), `indexError` a raised `IndexError`
(indexing `[0]` into an empty neighbor list), and `diverge` marks fuel
exhaustion of an embedded unbounded source loop. -/
inductive Err where
  | valueError (msg : String)
  | indexError
  | diverge
deriving DecidableEq

/-- The imputation strategy argument: the keyword `'default'`, a float
literal (`isinstance(strategy, float)`), or anything else (shown by its
`str(...)` rendering in the raised message). -/
inductive Strategy where
  | default
  | number (x : Int)
  | other (s : String)

/-- Python `str(strategy)` as used in the error message of
`impute_inactive_values`. -/
def Strategy.str : Strategy → String
  | .default => "default"
  | .number x => toString x
  | .other s => s

/-- The dictionary-building loop of `impute_inactive_values`
(util.py lines 21-39): walk the parameter names in canonical order; keep a
present value; replace a missing one by the parameter's default (strategy
`'default'`) or by the float literal; raise
`ValueError('Unknown imputation strategy ...')` on any other strategy. -/
def imputeValues (config : Configuration) (strategy : Strategy) :
    List String → Except Err (List (String × Val))
  | [] => Except.ok []
  | nm :: rest =>
    match config.value nm with
    | some v => (imputeValues config strategy rest).map (fun vs => (nm, some v) :: vs)
    | none =>
      match strategy with
      | .default =>
        let hp := config.configuration_space.get_hyperparameter nm
        (imputeValues config strategy rest).map (fun vs => (nm, some hp.default) :: vs)
      | .number x =>
        (imputeValues config strategy rest).map (fun vs => (nm, some x) :: vs)
      | .other s =>
        Except.error (Err.valueError ("Unknown imputation strategy " ++ Strategy.str (.other s)))

/-- `impute_inactive_values(configuration, strategy)` (util.py lines 9-44):
build the imputed raw-value dictionary, then construct the result with the
relaxed (invariant-skipping) constructor. -/
def impute_inactive_values (config : Configuration)
    (strategy : Strategy) : Except Err Configuration :=
  (imputeValues config strategy config.names).map
    (Configuration.fromValuesRelaxed config.configuration_space)

/-- The loop state of one parameter's `while True` loop inside
`get_one_exchange_neighbourhood`: the (call-global) neighbourhood list, the
per-parameter counters `number_of_sampled_neighbors` and `iteration`, the
threaded random generator, and a ghost counter `rounds` recording how many
times `hp.get_neighbors` has been invoked for this parameter (observation
only — it influences no control flow). -/
structure OneExState where
  neighbourhood : List Configuration
  number_of_sampled_neighbors : Nat
  iteration : Nat
  rng : RandomState
  rounds : Nat

/-- The encoded current value `array[i]` handed to `hp.get_neighbors`
(the loop only runs when the entry is present). -/
def arrVal (array : List Val) (i : Nat) : Int :=
  (array.getD i none).getD 0

/-- Fuel for one activation-propagation pass; reactivation re-enqueues
children, so the walk of the acyclic condition graph is bounded (any
sufficient bound works — out-of-fuel is reported as divergence). -/
def propagationFuel (cs : ConfigurationSpace) : Nat :=
  (cs.hyperparameters.length + 2) ^ (cs.hyperparameters.length + 2)

/-- One activation-propagation pass (util.py lines 94-135).  The work list
is kept in pop order: `deque.pop()` takes the head and
`deque.extendleft(children)` appends the children at the tail.  For the
popped node the gating conditions are evaluated — reading parent values
from the ORIGINAL configuration (`configuration[parent_name]`, line 110) —
and the node's vector entry is defaulted on activation (re-enqueuing its
children) or cleared on deactivation (not re-enqueuing them). -/
def propagate (cs : ConfigurationSpace) (config : Configuration) :
    Nat → List Val → List Hyperparameter → Option (List Val)
  | 0, _, _ => none
  | _ + 1, arr, [] => some arr
  | fuel + 1, arr, current :: rest =>
    let current_idx := cs.get_idx_by_hyperparameter_name current.name
    let current_value := arr.getD current_idx none
    let conditions := cs.get_parent_conditions_of current.name
    let active := conditions.all (fun cond =>
      cond.parents.all (fun p => (config.value p).isSome) &&
      cond.evaluate (fun p => (config.value p).getD 0))
    if active && current_value.isNone then
      let arr' := arr.set current_idx
        (some (current.inverse_transform current.default))
      propagate cs config fuel arr' (rest ++ cs.get_children_of current.name)
    else if !active && current_value.isSome then
      propagate cs config fuel (arr.set current_idx none) rest
    else
      propagate cs config fuel arr rest

/-- One candidate vector of `get_one_exchange_neighbourhood` (util.py lines
86-95): copy the array, overwrite index `i` with the neighbor value, and —
when the perturbed parameter has children — run the activation-propagation
pass rooted at them.  `none` marks a diverging pass. -/
def candidateVector (cs : ConfigurationSpace) (config : Configuration)
    (i : Nat) (hpName : String) (array : List Val) (w : Int) :
    Option (List Val) :=
  let new_array := array.set i (some w)
  let children := cs.get_children_of hpName
  if children.length > 0 then
    propagate cs config (propagationFuel cs) new_array children
  else
    some new_array

/-- The `for neighbor in neighbors` loop (util.py lines 85-148): each
candidate is propagated, strictly constructed (appending to the
neighbourhood and counting it as sampled on success, discarding it
silently on `ValueError`), then the per-parameter `iteration` counter is
checked against 10,000 — exceeding it raises
`ValueError('Infinite loop!')` — and incremented. -/
def processCandidates (cs : ConfigurationSpace) (config : Configuration)
    (i : Nat) (hpName : String) (array : List Val) :
    List Int → OneExState → Except Err OneExState
  | [], st => Except.ok st
  | w :: rest, st =>
    match candidateVector cs config i hpName array w with
    | none => Except.error Err.diverge
    | some new_array =>
      let st1 :=
        match Configuration.fromVector cs new_array with
        | some c =>
          { st with neighbourhood := st.neighbourhood ++ [c],
                    number_of_sampled_neighbors := st.number_of_sampled_neighbors + 1 }
        | none => st
      if st1.iteration > 10000 then
        Except.error (Err.valueError "Infinite loop!")
      else
        processCandidates cs config i hpName array rest
          { st1 with iteration := st1.iteration + 1 }

/-- One parameter's `while True` loop (util.py lines 65-148): break on zero
neighbor cardinality; for unbounded cardinality request
`4 - number_of_sampled_neighbors` samples, breaking when none are left;
for finite cardinality break once anything was sampled, otherwise request
the full neighbor set; then process the candidates and loop. -/
def paramLoop (cs : ConfigurationSpace) (config : Configuration) (i : Nat)
    (hpName : String) (array : List Val) :
    Nat → OneExState → Except Err OneExState
  | 0, _ => Except.error Err.diverge
  | fuel + 1, st =>
    let hp := cs.get_hyperparameter hpName
    match hp.get_num_neighbors with
    | NumNeighbors.finite 0 => Except.ok st
    | NumNeighbors.infinite =>
      let num_samples : Int := 4 - (st.number_of_sampled_neighbors : Int)
      if num_samples ≤ 0 then Except.ok st
      else
        let drawn := hp.get_neighbors (arrVal array i) st.rng (some num_samples.toNat) false
        match processCandidates cs config i hpName array drawn.1
            { st with rng := drawn.2, rounds := st.rounds + 1 } with
        | Except.ok st' => paramLoop cs config i hpName array fuel st'
        | Except.error e => Except.error e
    | NumNeighbors.finite (_ + 1) =>
      if st.number_of_sampled_neighbors > 0 then Except.ok st
      else
        let drawn := hp.get_neighbors (arrVal array i) st.rng none false
        match processCandidates cs config i hpName array drawn.1
            { st with rng := drawn.2, rounds := st.rounds + 1 } with
        | Except.ok st' => paramLoop cs config i hpName array fuel st'
        | Except.error e => Except.error e

/-- Fuel for one parameter's `while True` loop: every round that draws a
nonempty candidate list advances `iteration`, which is capped at 10,000,
so 10,005 rounds always suffice (rounds drawing nothing forever are a
genuine livelock and exhaust the fuel into `Err.diverge`). -/
def paramLoopFuel : Nat := 10005

/-- The enumerated parameter names (`enumerate(configuration)`). -/
def enumFrom : Nat → List String → List (Nat × String)
  | _, [] => []
  | k, nm :: rest => (k, nm) :: enumFrom (k + 1) rest

/-- Enumerated canonical parameter order of a configuration. -/
def Configuration.enumerate (c : Configuration) : List (Nat × String) :=
  enumFrom 0 c.names

/-- The outer `for i, hp_name in enumerate(configuration)` loop of
`get_one_exchange_neighbourhood` (util.py lines 57-148): skip parameters
whose encoded entry is missing; otherwise run the per-parameter loop with
`number_of_sampled_neighbors` and `iteration` freshly reset to 0, the
neighbourhood list and random generator threaded through.  Alongside the
neighbourhood the final per-parameter `iteration` counters are returned
as ghost observations. -/
def oneExchangeGo (config : Configuration) :
    List (Nat × String) → List Configuration → List Nat → RandomState →
    Except Err (List Configuration × List Nat × RandomState)
  | [], nb, stats, rng => Except.ok (nb, stats, rng)
  | (i, hp_name) :: rest, nb, stats, rng =>
    let array := config.get_array
    if (array.getD i none).isNone then
      oneExchangeGo config rest nb stats rng
    else
      match paramLoop config.configuration_space config i hp_name array
          paramLoopFuel ⟨nb, 0, 0, rng, 0⟩ with
      | Except.error e => Except.error e
      | Except.ok st =>
        oneExchangeGo config rest st.neighbourhood (stats ++ [st.iteration]) st.rng

/-- The body of `get_one_exchange_neighbourhood` after the generator has
been seeded (util.py line 55 creates `np.random.RandomState(seed)`;
everything after consumes only that generator). -/
def oneExchangeFrom (config : Configuration) (rng : RandomState) :
    Except Err (List Configuration × List Nat × RandomState) :=
  oneExchangeGo config config.enumerate [] [] rng

/-- `get_one_exchange_neighbourhood(configuration, seed)` (util.py lines
47-150): the ordered list of accepted neighbor configurations. -/
def get_one_exchange_neighbourhood (config : Configuration) (seed : Nat) :
    Except Err (List Configuration) :=
  (oneExchangeFrom config (np_random_RandomState seed)).map (fun r => r.1)

/-- Ghost summary of one call: the number of returned configurations and
the final per-parameter `iteration` counters. -/
def oneExchangeSummary (config : Configuration) (seed : Nat) :
    Except Err (Nat × List Nat) :=
  (oneExchangeFrom config (np_random_RandomState seed)).map
    (fun r => (r.1.length, r.2.1))

/-- The random slot draw of `get_random_neighbor` (util.py lines 190-194):
with more than one hyperparameter, `rand_idx = random.randint(0,
num_hyperparameters - 1)` — numpy excludes the high end, so the draw lands
in `[0, num_hyperparameters - 1)`; with one hyperparameter, index 0. -/
def drawRandIdx (config : Configuration) (rng : RandomState) :
    Nat × RandomState :=
  if config.num_hyperparameters > 1 then
    rng.randint 0 (config.num_hyperparameters - 1)
  else
    (0, rng)

/-- The `while not active` selection loop of `get_random_neighbor`
(util.py lines 188-209): each pass increments `iteration`, draws a slot,
and accepts it when its encoded value is present and the hyperparameter
reports having neighbors; at the end of EVERY pass (even an accepting
one) `iteration > 10000` raises
`ValueError('Probably caught in an infinite loop.')`. -/
def selectionLoop (config : Configuration) :
    Nat → Nat → RandomState → Except Err (Hyperparameter × Int × RandomState)
  | 0, _, _ => Except.error Err.diverge
  | fuel + 1, iteration, rng =>
    let iteration := iteration + 1
    let drawn := drawRandIdx config rng
    let rand_idx := drawn.1
    let value := config.get_array.getD rand_idx none
    let sel : Option (Hyperparameter × Int) :=
      match value with
      | some v =>
        let hp_name := config.configuration_space.get_hyperparameter_by_idx rand_idx
        let hp := config.configuration_space.get_hyperparameter hp_name
        if hp.has_neighbors then some (hp, v) else none
      | none => none
    if iteration > 10000 then
      Except.error (Err.valueError "Probably caught in an infinite loop.")
    else
      match sel with
      | some (hp, v) => Except.ok (hp, v, drawn.2)
      | none => selectionLoop config fuel iteration drawn.2

/-- Fuel for the selection loop: it raises on pass 10,001, so 10,002
passes always suffice. -/
def selectionFuel : Nat := 10002

/-- The outer `while rejected` loop of `get_random_neighbor` (util.py
lines 184-221): select a parameter (the selection `iteration` counter is
reset to 0 each outer round), draw exactly one raw-domain neighbor
(`number=1, transform=True`, indexing `[0]` into the result), write it
into the raw-value dictionary and attempt a strict reconstruction; on
rejection restore the previous value and retry with the advanced
generator.  The outer loop has no cap of its own (fuel exhaustion is the
source's actual nontermination). -/
def randomNeighborLoop (config : Configuration) :
    Nat → List (String × Val) → RandomState → Except Err Configuration
  | 0, _, _ => Except.error Err.diverge
  | fuel + 1, values, rng =>
    match selectionLoop config selectionFuel 0 rng with
    | Except.error e => Except.error e
    | Except.ok (hp, value, rng1) =>
      let drawn := hp.get_neighbors value rng1 (some 1) true
      match drawn.1 with
      | [] => Except.error Err.indexError
      | neighbor :: _ =>
        let previous_value := lookupVal values hp.name
        let values1 := updateVal values hp.name (some neighbor)
        match Configuration.fromValues config.configuration_space values1 with
        | some c => Except.ok c
        | none =>
          randomNeighborLoop config fuel
            (updateVal values1 hp.name previous_value) drawn.2

/-- Fuel for the outer rejection loop of `get_random_neighbor` (the source
loop is genuinely unbounded; any concrete budget makes the embedding total,
with `Err.diverge` marking exhaustion). -/
def outerFuel : Nat := 10002

/-- `get_random_neighbor(configuration, seed)` (util.py lines 154-222):
seed a fresh generator, copy the raw-value dictionary, and run the
rejection loop. -/
def get_random_neighbor (config : Configuration) (seed : Nat) :
    Except Err Configuration :=
  randomNeighborLoop config outerFuel config.get_dictionary
    (np_random_RandomState seed)

/-! Concrete configuration spaces used to settle the claims. -/

/-- Boolean categorical parameter `A` (encoded 0 = false, 1 = true,
identity transforms), default false; its single neighbor is the other
value. -/
def hpA : Hyperparameter :=
  ⟨"A", 0, id, id, NumNeighbors.finite 1, true,
    fun v r _ _ => ([1 - v], r)⟩

/-- Uniform integer parameter `B ∈ [0,10]` with default 5 (identity
transforms); unbounded neighbor cardinality, neighbors drawn from the
generator. -/
def hpB : Hyperparameter :=
  ⟨"B", 5, id, id, NumNeighbors.infinite, true,
    fun v r n _ =>
      match n with
      | some k => ((List.range k).map (fun j => (v + Int.ofNat j + 1) % 11), r)
      | none => ([], r)⟩

/-- The spec's scenario space: `A ∈ {true,false}` (default false) and
`B ∈ [0,10]` (default 5), `B` active only when `A = true`. -/
def csAB : ConfigurationSpace :=
  ⟨[hpA, hpB],
    fun nm => if nm == "A" then [hpB] else [],
    fun nm => if nm == "B" then [⟨["A"], fun look => look "A" == 1⟩] else [],
    fun _ => false⟩

/-- The scenario configuration `{A: false, B: missing}`. -/
def cfgAB : Configuration := ⟨csAB, [some 0, none]⟩

/-- A constant-like parameter `K`: zero neighbor cardinality and no
neighbors. -/
def hpK : Hyperparameter :=
  ⟨"K", 0, id, id, NumNeighbors.finite 0, false, fun _ r _ _ => ([], r)⟩

/-- A space with the single zero-neighbor parameter `K` and no
conditions. -/
def csK : ConfigurationSpace := ⟨[hpK], fun _ => [], fun _ => [], fun _ => false⟩

/-- The configuration `{K: 0}` (every active parameter has zero neighbor
cardinality). -/
def cfgK : Configuration := ⟨csK, [some 0]⟩

/-- A finite parameter `F` whose single neighbor value 9 is rejected by a
forbidden clause. -/
def hpF : Hyperparameter :=
  ⟨"F", 0, id, id, NumNeighbors.finite 1, true, fun _ r _ _ => ([9], r)⟩

/-- A space whose forbidden clause rejects every vector holding 9 in slot
0 — so every sampled neighbor of `F` fails strict construction. -/
def csF : ConfigurationSpace :=
  ⟨[hpF], fun _ => [], fun _ => [], fun v => v.getD 0 none == some 9⟩

/-- The configuration `{F: 5}`. -/
def cfgF : Configuration := ⟨csF, [some 5]⟩

/-- The `count` integer values `100, 101, ...`. -/
def manyVals (count : Nat) : List Int :=
  (List.range count).map (fun j => Int.ofNat j + 100)

/-- A finite parameter named `nm` whose full neighbor set is the `count`
values `100, 101, ...`, independent of the generator. -/
def hpMany (nm : String) (count : Nat) : Hyperparameter :=
  ⟨nm, 0, id, id, NumNeighbors.finite 1, true,
    fun _ r _ _ => (manyVals count, r)⟩

/-- A two-parameter unconditioned space where each parameter contributes
5,001 accepted candidates — 10,002 attempts across the whole call. -/
def csTwo : ConfigurationSpace :=
  ⟨[hpMany "X" 5001, hpMany "Y" 5001], fun _ => [], fun _ => [], fun _ => false⟩

/-- The configuration `{X: 0, Y: 0}`. -/
def cfgTwo : Configuration := ⟨csTwo, [some 0, some 0]⟩

/-- A one-parameter unconditioned space whose single parameter draws
10,002 candidates in one round, overrunning the per-parameter cap. -/
def csBig : ConfigurationSpace :=
  ⟨[hpMany "G" 10002], fun _ => [], fun _ => [], fun _ => false⟩

/-- The configuration `{G: 0}`. -/
def cfgBig : Configuration := ⟨csBig, [some 0]⟩

/-- An unbounded continuous-like parameter `U` returning exactly the
requested number of neighbors. -/
def hpU : Hyperparameter :=
  ⟨"U", 0, id, id, NumNeighbors.infinite, true,
    fun v r n _ =>
      match n with
      | some k => ((List.range k).map (fun j => v + Int.ofNat j + 1), r)
      | none => ([], r)⟩

/-- A one-parameter unconditioned space around `U`. -/
def csU : ConfigurationSpace := ⟨[hpU], fun _ => [], fun _ => [], fun _ => false⟩

/-- The configuration `{U: 0}`. -/
def cfgU : Configuration := ⟨csU, [some 0]⟩

/-- A two-parameter unconditioned space in which BOTH parameters are
present and report neighbors — both qualify for random selection. -/
def csR : ConfigurationSpace :=
  ⟨[hpMany "P" 3, hpMany "Q" 3], fun _ => [], fun _ => [], fun _ => false⟩

/-- The configuration `{P: 0, Q: 0}`. -/
def cfgR : Configuration := ⟨csR, [some 0, some 0]⟩

/-- A one-parameter space around the categorical `A` alone (no children,
nothing forbidden): its single neighbor is always accepted. -/
def csA1 : ConfigurationSpace := ⟨[hpA], fun _ => [], fun _ => [], fun _ => false⟩

/-- The configuration `{A: false}`. -/
def cfgA1 : Configuration := ⟨csA1, [some 0]⟩

/-- A conditional child `W` with unbounded neighbor cardinality — it DOES
report having neighbors. -/
def hpW : Hyperparameter :=
  ⟨"W", 0, id, id, NumNeighbors.infinite, true,
    fun v r n _ =>
      match n with
      | some k => ((List.range k).map (fun j => v + Int.ofNat j + 1), r)
      | none => ([], r)⟩

/-- A conditional space: the zero-neighbor constant `K` gates the
neighbor-having child `W` (active only when `K = 1`). -/
def csKW : ConfigurationSpace :=
  ⟨[hpK, hpW],
    fun nm => if nm == "K" then [hpW] else [],
    fun nm => if nm == "W" then [⟨["K"], fun look => look "K" == 1⟩] else [],
    fun _ => false⟩

/-- The configuration `{K: 0, W: missing}`: the only active parameter is
the zero-cardinality `K`; the inactive `W` has neighbors. -/
def cfgKW : Configuration := ⟨csKW, [some 0, none]⟩

/-- The activation status the propagation pass computes for a node: every
gating condition must have all parents present and evaluate true — over
the ORIGINAL configuration's values, exactly as util.py lines 105-121. -/
def nodeActive (cs : ConfigurationSpace) (config : Configuration)
    (name : String) : Bool :=
  (cs.get_parent_conditions_of name).all (fun cond =>
    cond.parents.all (fun p => (config.value p).isSome) &&
    cond.evaluate (fun p => (config.value p).getD 0))

theorem propagate_eq_nodeActive (cs : ConfigurationSpace)
    (config : Configuration) (fuel : Nat) (arr : List Val)
    (current : Hyperparameter) (rest : List Hyperparameter) :
    propagate cs config (fuel + 1) arr (current :: rest)
      = (if nodeActive cs config current.name
            && (arr.getD (cs.get_idx_by_hyperparameter_name current.name) none).isNone
         then
           propagate cs config fuel
             (arr.set (cs.get_idx_by_hyperparameter_name current.name)
               (some (current.inverse_transform current.default)))
             (rest ++ cs.get_children_of current.name)
         else if !nodeActive cs config current.name
            && (arr.getD (cs.get_idx_by_hyperparameter_name current.name) none).isSome
         then
           propagate cs config fuel
             (arr.set (cs.get_idx_by_hyperparameter_name current.name) none) rest
         else propagate cs config fuel arr rest) := by
  rfl

/-- C10: during one activation-propagation pass, when the popped node
computes inactive while its vector entry holds a value, the step clears
exactly that entry to the missing sentinel and continues with the
REMAINING work list only — the node's own children are not enqueued for
re-examination, so entries of children reachable only through that node
are left untouched (possibly stale) by this step of the pass
(util.py lines 124-135: the deactivation branch, unlike the activation
branch, has no `to_visit.extendleft(children)`). -/
theorem deactivation_does_not_enqueue_children (cs : ConfigurationSpace)
    (config : Configuration) (fuel : Nat) (arr : List Val)
    (current : Hyperparameter) (rest : List Hyperparameter)
    (hinactive : nodeActive cs config current.name = false)
    (hheld : (arr.getD (cs.get_idx_by_hyperparameter_name current.name) none).isSome
      = true) :
    propagate cs config (fuel + 1) arr (current :: rest)
      = propagate cs config fuel
          (arr.set (cs.get_idx_by_hyperparameter_name current.name) none) rest := by
  rw [propagate_eq_nodeActive, hinactive, hheld]
  simp

/-- Witness for C10 at a concrete pass state: in the scenario space, with
the original configuration `{A: false, B: missing}`, a mid-pass vector
holding a (stale) value 7 for `B` deactivates `B` without enqueuing
anything. -/
theorem deactivation_does_not_enqueue_children_witness :
    propagate csAB cfgAB 6 [some 0, some 7] [hpB]
      = propagate csAB cfgAB 5
          ([some 0, some 7].set (csAB.get_idx_by_hyperparameter_name hpB.name) none)
          [] :=
  deactivation_does_not_enqueue_children csAB cfgAB 5 [some 0, some 7] hpB []
    (by decide) (by decide)

/-- C3 (code evaluation at the failing input): in a two-parameter space
where BOTH slots are present and report neighbors, the slot draw of
`get_random_neighbor` can never produce the last index: the source draws
`random.randint(0, num_hyperparameters - 1)` (util.py line 191) and
numpy's `randint` excludes its high end, so for every possible generator
state the drawn index is 0 — slot 1 has zero probability of selection
although it qualifies. -/
theorem random_selection_never_picks_last_slot :
    ((cfgR.get_array.getD 1 none).isSome = true)
    ∧ ((csR.get_hyperparameter (csR.get_hyperparameter_by_idx 1)).has_neighbors = true)
    ∧ ∀ r : RandomState, (drawRandIdx cfgR r).1 ≠ 1 := by
  refine ⟨rfl, rfl, fun r => ?_⟩
  simp [drawRandIdx, Configuration.num_hyperparameters, cfgR, csR,
    RandomState.randint, RandomState.next, Nat.mod_one]

/-- Witness for C3 at a concrete generator. -/
theorem random_selection_never_picks_last_slot_witness :
    (drawRandIdx cfgR ⟨fun _ => 0, 0⟩).1 ≠ 1 :=
  random_selection_never_picks_last_slot.2.2 ⟨fun _ => 0, 0⟩

/-- C6: both neighbor functions are deterministic in (configuration,
seed): equal inputs give equal outputs, and each is exactly its body run
on a generator freshly seeded from the caller's seed
(util.py lines 55 and 180) — no other random state is consulted, the
embedding being a pure function of the two arguments. -/
theorem neighbor_functions_deterministic (c c' : Configuration)
    (s s' : Nat) (hc : c = c') (hs : s = s') :
    get_one_exchange_neighbourhood c s = get_one_exchange_neighbourhood c' s'
    ∧ get_random_neighbor c s = get_random_neighbor c' s'
    ∧ get_one_exchange_neighbourhood c s
        = (oneExchangeFrom c (np_random_RandomState s)).map (fun r => r.1)
    ∧ get_random_neighbor c s
        = randomNeighborLoop c outerFuel c.get_dictionary (np_random_RandomState s) := by
  subst hc; subst hs
  exact ⟨rfl, rfl, rfl, rfl⟩

/-- Witness for C6 at a concrete configuration and seed. -/
theorem neighbor_functions_deterministic_witness :
    get_one_exchange_neighbourhood cfgA1 3 = get_one_exchange_neighbourhood cfgA1 3
    ∧ get_random_neighbor cfgA1 3 = get_random_neighbor cfgA1 3
    ∧ get_one_exchange_neighbourhood cfgA1 3
        = (oneExchangeFrom cfgA1 (np_random_RandomState 3)).map (fun r => r.1)
    ∧ get_random_neighbor cfgA1 3
        = randomNeighborLoop cfgA1 outerFuel cfgA1.get_dictionary
            (np_random_RandomState 3) :=
  neighbor_functions_deterministic cfgA1 cfgA1 3 3 rfl rfl

/-- C4 counterexample: with an invalid strategy but a fully-specified
configuration, `impute_inactive_values` raises nothing — it returns a
configuration.  The strategy check (util.py lines 26-35) sits inside the
`if value is None` branch and is never reached when no value is missing,
so the claim's "for every input configuration" fails. -/
theorem impute_invalid_strategy_no_error_when_full :
    impute_inactive_values cfgK (Strategy.other "mean")
      = Except.ok ⟨csK, [some 0]⟩ := by
  rfl

theorem imputeValues_error_of_missing (config : Configuration) (s : String) :
    ∀ L : List String, (∃ nm ∈ L, config.value nm = none) →
      imputeValues config (Strategy.other s) L
        = Except.error (Err.valueError ("Unknown imputation strategy " ++ s))
  | [], h => by simp at h
  | nm :: rest, h => by
    rcases h with ⟨nm', hmem, hnone⟩
    rcases List.mem_cons.mp hmem with heq | htail
    · subst heq
      simp [imputeValues, hnone, Strategy.str]
    · cases hval : config.value nm with
      | none => simp [imputeValues, hval, Strategy.str]
      | some v =>
        have ih := imputeValues_error_of_missing config s rest ⟨nm', htail, hnone⟩
        simp [imputeValues, hval, ih, Except.map]

/-- C4 amended: `impute_inactive_values` raises the InvalidStrategy
`ValueError` for a non-default, non-float strategy exactly when the
configuration has at least one missing value (the check lives inside the
missing-value branch); the error is surfaced immediately, with no retry. -/
theorem impute_invalid_strategy_error (config : Configuration) (s : String)
    (hmiss : ∃ nm ∈ config.names, config.value nm = none) :
    impute_inactive_values config (Strategy.other s)
      = Except.error (Err.valueError ("Unknown imputation strategy " ++ s)) := by
  unfold impute_inactive_values
  rw [imputeValues_error_of_missing config s config.names hmiss]
  rfl

/-- Witness for C4's amended claim: the scenario configuration has `B`
missing, and an unknown strategy string raises the ValueError. -/
theorem impute_invalid_strategy_error_witness :
    impute_inactive_values cfgAB (Strategy.other "mean")
      = Except.error (Err.valueError "Unknown imputation strategy mean") :=
  impute_invalid_strategy_error cfgAB "mean" ⟨"B", by decide, by decide⟩

theorem oneExchangeGo_cons_error (config : Configuration) (i : Nat)
    (nm : String) (rest : List (Nat × String)) (nb : List Configuration)
    (stats : List Nat) (rng : RandomState) (e : Err)
    (hpres : ((config.get_array.getD i none).isNone) = false)
    (herr : paramLoop config.configuration_space config i nm config.get_array
        paramLoopFuel ⟨nb, 0, 0, rng, 0⟩ = Except.error e) :
    oneExchangeGo config ((i, nm) :: rest) nb stats rng = Except.error e := by
  simp only [oneExchangeGo, hpres, herr, Bool.false_eq_true, if_false]

theorem oneExchangeGo_cons_ok (config : Configuration) (i : Nat)
    (nm : String) (rest : List (Nat × String)) (nb : List Configuration)
    (stats : List Nat) (rng : RandomState) (st : OneExState)
    (hpres : ((config.get_array.getD i none).isNone) = false)
    (hok : paramLoop config.configuration_space config i nm config.get_array
        paramLoopFuel ⟨nb, 0, 0, rng, 0⟩ = Except.ok st) :
    oneExchangeGo config ((i, nm) :: rest) nb stats rng
      = oneExchangeGo config rest st.neighbourhood (stats ++ [st.iteration])
          st.rng := by
  simp only [oneExchangeGo, hpres, hok, Bool.false_eq_true, if_false]

theorem paramLoop_single_rejected (cs : ConfigurationSpace)
    (config : Configuration) (i : Nat) (hpName : String) (array : List Val)
    (w : Int) (m : Nat)
    (hnum : (cs.get_hyperparameter hpName).get_num_neighbors
      = NumNeighbors.finite (m + 1))
    (hneigh : ∀ r : RandomState,
      (cs.get_hyperparameter hpName).get_neighbors (arrVal array i) r none false
        = ([w], r))
    (hrej : (candidateVector cs config i hpName array w).map
        (fun v => (Configuration.fromVector cs v).isSome) = some false) :
    ∀ (fuel : Nat) (st : OneExState),
      st.number_of_sampled_neighbors = 0 → st.iteration ≤ 10001 →
      10002 - st.iteration ≤ fuel →
      paramLoop cs config i hpName array fuel st
        = Except.error (Err.valueError "Infinite loop!")
  | 0, st, _, hit, hfuel => by omega
  | fuel + 1, ⟨nb, s, it, rng, rd⟩, hs, hit, hfuel => by
    obtain ⟨v, hv, hfv⟩ : ∃ v, candidateVector cs config i hpName array w = some v
        ∧ Configuration.fromVector cs v = none := by
      cases hcv : candidateVector cs config i hpName array w with
      | none => rw [hcv] at hrej; simp at hrej
      | some v =>
        rw [hcv] at hrej
        simp at hrej
        exact ⟨v, rfl, Option.not_isSome_iff_eq_none.mp (by simp [hrej])⟩
    have hs' : s = 0 := hs
    have hit' : it ≤ 10001 := hit
    have hfuel' : 10002 - it ≤ fuel + 1 := hfuel
    subst hs'
    simp only [paramLoop, hnum, hneigh rng, processCandidates, hv, hfv,
      Nat.lt_irrefl, if_false, gt_iff_lt]
    by_cases hit1 : 10000 < it
    · simp [hit1]
    · simp only [hit1, if_false]
      exact paramLoop_single_rejected cs config i hpName array w m hnum hneigh
        hrej fuel ⟨nb, 0, it + 1, rng, rd + 1⟩ rfl
        (show it + 1 ≤ 10001 by omega) (show 10002 - (it + 1) ≤ fuel by omega)

/-- C1 (code evaluation at the failing input): on the spec's scenario
space, `get_one_exchange_neighbourhood({A: false, B: missing}, 0)` does
NOT return a list containing a candidate `{A: true, B: 5}` — it raises
`ValueError('Infinite loop!')`.  The root cause (second conjunct): the
propagation pass evaluates `B`'s condition against the ORIGINAL
configuration's `A = false` (util.py line 110 reads
`configuration[parent_name]`, not the perturbed vector), so it leaves `B`
missing in the `A: true` candidate; strict construction then rejects that
candidate (third conjunct), and the finite neighbor set is resampled
until the 10,000-iteration cap fires. -/
theorem one_exchange_scenario_raises :
    get_one_exchange_neighbourhood cfgAB 0
        = Except.error (Err.valueError "Infinite loop!")
    ∧ propagate csAB cfgAB (propagationFuel csAB) [some 1, none] [hpB]
        = some [some 1, none]
    ∧ Configuration.fromVector csAB [some 1, none] = none := by
  refine ⟨?_, by rfl, by rfl⟩
  have herr := paramLoop_single_rejected csAB cfgAB 0 "A" [some 0, none] 1 0
    rfl (fun r => rfl) (by rfl) paramLoopFuel
    ⟨[], 0, 0, np_random_RandomState 0, 0⟩ rfl (by norm_num)
    (by norm_num [paramLoopFuel])
  have hgo := oneExchangeGo_cons_error cfgAB 0 "A" [(1, "B")] [] []
    (np_random_RandomState 0) (Err.valueError "Infinite loop!") rfl herr
  show (oneExchangeGo cfgAB cfgAB.enumerate [] [] (np_random_RandomState 0)).map
      (fun r => r.1) = _
  rw [show cfgAB.enumerate = [(0, "A"), (1, "B")] from rfl, hgo]
  rfl

/-- C5 counterexample: a finite-cardinality parameter whose full neighbor
set is wholly rejected is NOT sampled exactly once per call — the
`number_of_sampled_neighbors > 0` break (util.py lines 80-81) counts only
ACCEPTED candidates, so with zero acceptances the same full set is
resampled round after round until the iteration cap raises
`ValueError('Infinite loop!')`; under the claim the call would instead
terminate with that parameter contributing nothing. -/
theorem one_exchange_resamples_rejected_finite_set :
    get_one_exchange_neighbourhood cfgF 0
      = Except.error (Err.valueError "Infinite loop!") := by
  have herr := paramLoop_single_rejected csF cfgF 0 "F" [some 5] 9 0
    rfl (fun r => rfl) (by rfl) paramLoopFuel
    ⟨[], 0, 0, np_random_RandomState 0, 0⟩ rfl (by norm_num)
    (by norm_num [paramLoopFuel])
  have hgo := oneExchangeGo_cons_error cfgF 0 "F" [] [] []
    (np_random_RandomState 0) (Err.valueError "Infinite loop!") rfl herr
  show (oneExchangeGo cfgF cfgF.enumerate [] [] (np_random_RandomState 0)).map
      (fun r => r.1) = _
  rw [show cfgF.enumerate = [(0, "F")] from rfl, hgo]
  rfl

theorem processCandidates_rounds (cs : ConfigurationSpace)
    (config : Configuration) (i : Nat) (hpName : String) (array : List Val) :
    ∀ (L : List Int) (st st' : OneExState),
      processCandidates cs config i hpName array L st = Except.ok st' →
      st'.rounds = st.rounds
  | [], st, st', h => by
    simp only [processCandidates, Except.ok.injEq] at h
    rw [← h]
  | w :: rest, st, st', h => by
    simp only [processCandidates] at h
    cases hcv : candidateVector cs config i hpName array w with
    | none => simp [hcv] at h
    | some v =>
      simp only [hcv] at h
      cases hfv : Configuration.fromVector cs v with
      | none =>
        simp only [hfv] at h
        by_cases hit : st.iteration > 10000
        · simp [hit] at h
        · simp only [hit, if_false, gt_iff_lt] at h
          have := processCandidates_rounds cs config i hpName array rest _ _ h
          simpa using this
      | some c =>
        simp only [hfv] at h
        by_cases hit : st.iteration > 10000
        · simp [hit] at h
        · simp only [hit, if_false, gt_iff_lt] at h
          have := processCandidates_rounds cs config i hpName array rest _ _ h
          simpa using this

/-- C5 amended: once at least one candidate of a finite-cardinality
parameter's round has been ACCEPTED, the loop breaks on its next
encounter of the parameter and the full neighbor set is sampled exactly
once (the ghost `rounds` counter ends at one more than it started);
with zero acceptances the set IS resampled, up to the iteration cap. -/
theorem finite_set_sampled_once_when_accepted (cs : ConfigurationSpace)
    (config : Configuration) (i : Nat) (hpName : String) (array : List Val)
    (m fuel : Nat) (st st2 : OneExState)
    (hnum : (cs.get_hyperparameter hpName).get_num_neighbors
      = NumNeighbors.finite (m + 1))
    (hs0 : st.number_of_sampled_neighbors = 0)
    (hproc : processCandidates cs config i hpName array
        ((cs.get_hyperparameter hpName).get_neighbors (arrVal array i) st.rng
          none false).1
        { st with
            rng := ((cs.get_hyperparameter hpName).get_neighbors
              (arrVal array i) st.rng none false).2,
            rounds := st.rounds + 1 } = Except.ok st2)
    (hacc : 0 < st2.number_of_sampled_neighbors) :
    paramLoop cs config i hpName array (fuel + 2) st = Except.ok st2
      ∧ st2.rounds = st.rounds + 1 := by
  obtain ⟨nb, s, it, rng, rd⟩ := st
  have hs0' : s = 0 := hs0
  subst hs0'
  constructor
  · simp only [paramLoop, hnum, Nat.lt_irrefl, if_false, gt_iff_lt]
    simp only at hproc
    rw [hproc]
    simp only [paramLoop, hnum, gt_iff_lt, hacc, if_true]
  · have := processCandidates_rounds cs config i hpName array _ _ _ hproc
    rw [this]

/-- Witness for C5's amended claim: the one-parameter categorical space
accepts its single neighbor in round one, so the loop ends with exactly
one sampling round. -/
theorem finite_set_sampled_once_when_accepted_witness :
    paramLoop csA1 cfgA1 0 "A" [some 0] 7 ⟨[], 0, 0, ⟨fun _ => 0, 0⟩, 0⟩
        = Except.ok ⟨[⟨csA1, [some 1]⟩], 1, 1, ⟨fun _ => 0, 0⟩, 1⟩
      ∧ (⟨[⟨csA1, [some 1]⟩], 1, 1, ⟨fun _ => 0, 0⟩, 1⟩ : OneExState).rounds
        = 0 + 1 :=
  finite_set_sampled_once_when_accepted csA1 cfgA1 0 "A" [some 0] 0 5
    ⟨[], 0, 0, ⟨fun _ => 0, 0⟩, 0⟩ ⟨[⟨csA1, [some 1]⟩], 1, 1, ⟨fun _ => 0, 0⟩, 1⟩
    rfl rfl (by rfl) (by norm_num)

theorem processCandidates_all_accepted (cs : ConfigurationSpace)
    (config : Configuration) (i : Nat) (hpName : String) (array : List Val)
    (hch : cs.get_children_of hpName = [])
    (hacc : ∀ w : Int, Configuration.fromVector cs (array.set i (some w))
      = some ⟨cs, array.set i (some w)⟩) :
    ∀ (L : List Int) (nb : List Configuration) (s it : Nat)
      (rng : RandomState) (rd : Nat),
      it + L.length ≤ 10001 →
      processCandidates cs config i hpName array L ⟨nb, s, it, rng, rd⟩
        = Except.ok ⟨nb ++ L.map (fun w => ⟨cs, array.set i (some w)⟩),
            s + L.length, it + L.length, rng, rd⟩
  | [], nb, s, it, rng, rd, hle => by simp [processCandidates]
  | w :: rest, nb, s, it, rng, rd, hle => by
    have hle' : it + (rest.length + 1) ≤ 10001 := hle
    have hcv : candidateVector cs config i hpName array w
        = some (array.set i (some w)) := by
      simp [candidateVector, hch]
    have hit : ¬ (10000 < it) := by omega
    have ih := processCandidates_all_accepted cs config i hpName array hch hacc
      rest (nb ++ [(⟨cs, array.set i (some w)⟩ : Configuration)]) (s + 1)
      (it + 1) rng rd (by omega)
    simp only [processCandidates, hcv, hacc w, gt_iff_lt, hit, if_false]
    rw [ih]
    simp only [Except.ok.injEq, OneExState.mk.injEq, List.length_cons]
    and_intros <;> first | rfl | simp | omega

theorem processCandidates_overflow (cs : ConfigurationSpace)
    (config : Configuration) (i : Nat) (hpName : String) (array : List Val)
    (hch : cs.get_children_of hpName = []) :
    ∀ (L : List Int) (st : OneExState),
      st.iteration ≤ 10001 → 10002 ≤ st.iteration + L.length →
      processCandidates cs config i hpName array L st
        = Except.error (Err.valueError "Infinite loop!")
  | [], st, hit, hlen => by simp at hlen; omega
  | w :: rest, st, hit, hlen => by
    have hcv : candidateVector cs config i hpName array w
        = some (array.set i (some w)) := by
      simp [candidateVector, hch]
    simp only [processCandidates, hcv]
    by_cases hit1 : 10000 < st.iteration
    · cases hfv : Configuration.fromVector cs (array.set i (some w)) with
      | none => simp [hfv, hit1]
      | some c => simp [hfv, hit1]
    · have hlen' : 10002 ≤ st.iteration + (rest.length + 1) := hlen
      cases hfv : Configuration.fromVector cs (array.set i (some w)) with
      | none =>
        simp only [hfv, gt_iff_lt, hit1, if_false]
        exact processCandidates_overflow cs config i hpName array hch rest _
          (show st.iteration + 1 ≤ 10001 by omega) (by simp; omega)
      | some c =>
        simp only [hfv, gt_iff_lt, hit1, if_false]
        exact processCandidates_overflow cs config i hpName array hch rest _
          (show st.iteration + 1 ≤ 10001 by omega) (by simp; omega)

theorem paramLoop_finite_one_round (cs : ConfigurationSpace)
    (config : Configuration) (i : Nat) (hpName : String) (array : List Val)
    (m : Nat) (L : List Int)
    (hnum : (cs.get_hyperparameter hpName).get_num_neighbors
      = NumNeighbors.finite (m + 1))
    (hneigh : ∀ r : RandomState,
      (cs.get_hyperparameter hpName).get_neighbors (arrVal array i) r none false
        = (L, r))
    (hch : cs.get_children_of hpName = [])
    (hacc : ∀ w : Int, Configuration.fromVector cs (array.set i (some w))
      = some ⟨cs, array.set i (some w)⟩)
    (hlen : L.length ≤ 10001) (hpos : 0 < L.length)
    (fuel : Nat) (nb : List Configuration) (rng : RandomState) (rd : Nat) :
    paramLoop cs config i hpName array (fuel + 2) ⟨nb, 0, 0, rng, rd⟩
      = Except.ok ⟨nb ++ L.map (fun w => ⟨cs, array.set i (some w)⟩),
          L.length, L.length, rng, rd + 1⟩ := by
  have hpc := processCandidates_all_accepted cs config i hpName array hch hacc
    L nb 0 0 rng (rd + 1) (by omega)
  simp only [paramLoop, hnum, hneigh rng, Nat.lt_irrefl, if_false, gt_iff_lt]
  rw [hpc]
  simp only [paramLoop, hnum, gt_iff_lt, Nat.zero_add]
  simp [hpos]

theorem paramLoop_finite_error (cs : ConfigurationSpace)
    (config : Configuration) (i : Nat) (hpName : String) (array : List Val)
    (m fuel : Nat) (L : List Int) (nb : List Configuration)
    (rng : RandomState) (rd : Nat) (e : Err)
    (hnum : (cs.get_hyperparameter hpName).get_num_neighbors
      = NumNeighbors.finite (m + 1))
    (hneigh : ∀ r : RandomState,
      (cs.get_hyperparameter hpName).get_neighbors (arrVal array i) r none false
        = (L, r))
    (herr : processCandidates cs config i hpName array L ⟨nb, 0, 0, rng, rd + 1⟩
      = Except.error e) :
    paramLoop cs config i hpName array (fuel + 1) ⟨nb, 0, 0, rng, rd⟩
      = Except.error e := by
  simp only [paramLoop, hnum, hneigh rng, Nat.lt_irrefl, if_false, gt_iff_lt]
  rw [herr]

/-- C2 counterexample: the attempt counter is NOT global across the call.
With two parameters contributing 5,001 attempts each (10,002 attempts in
total, each counted by the per-parameter `iteration` counter), the call
returns 10,002 configurations and no error — `iteration = 0` sits inside
the per-parameter loop (util.py line 59), so the cap is reset between
parameters; a single global counter exceeding 10,000 would have raised. -/
theorem one_exchange_attempts_exceed_cap_without_error :
    oneExchangeSummary cfgTwo 0 = Except.ok (10002, [5001, 5001]) := by
  have hp0 := paramLoop_finite_one_round csTwo cfgTwo 0 "X" [some 0, some 0]
    0 (manyVals 5001) rfl (fun r => rfl)
    rfl (fun w => rfl) (by norm_num [manyVals]) (by norm_num [manyVals])
    10003 [] (np_random_RandomState 0) 0
  have hp1 := paramLoop_finite_one_round csTwo cfgTwo 1 "Y" [some 0, some 0]
    0 (manyVals 5001) rfl (fun r => rfl)
    rfl (fun w => rfl) (by norm_num [manyVals]) (by norm_num [manyVals])
    10003
    ((manyVals 5001).map
      (fun w => ⟨csTwo, [some 0, some 0].set 0 (some w)⟩))
    (np_random_RandomState 0) 0
  show (oneExchangeGo cfgTwo cfgTwo.enumerate [] [] (np_random_RandomState 0)).map
      (fun r => (r.1.length, r.2.1)) = _
  rw [show cfgTwo.enumerate = [(0, "X"), (1, "Y")] from rfl]
  rw [oneExchangeGo_cons_ok cfgTwo 0 "X" [(1, "Y")] [] []
    (np_random_RandomState 0) _ rfl hp0]
  simp only [List.nil_append]
  rw [oneExchangeGo_cons_ok cfgTwo 1 "Y" []
    ((manyVals 5001).map (fun w => ⟨csTwo, [some 0, some 0].set 0 (some w)⟩))
    [(manyVals 5001).length] (np_random_RandomState 0) _ rfl hp1]
  simp [oneExchangeGo, Except.map, manyVals]

/-- C2 amended: the source keeps a PER-PARAMETER attempt counter, reset
to zero for each parameter of the call, and raises
`ValueError('Infinite loop!')` as soon as one parameter's counter exceeds
10,000 attempts; attempts are not accumulated across parameters.  Here a
single parameter drawing 10,002 candidates in one round trips the cap. -/
theorem one_exchange_cap_fires_within_one_parameter :
    get_one_exchange_neighbourhood cfgBig 0
      = Except.error (Err.valueError "Infinite loop!") := by
  have hover := processCandidates_overflow csBig cfgBig 0 "G" [some 0] rfl
    (manyVals 10002) ⟨[], 0, 0, np_random_RandomState 0, 0 + 1⟩
    (by norm_num) (by norm_num [manyVals])
  have herr := paramLoop_finite_error csBig cfgBig 0 "G" [some 0] 0 10004
    (manyVals 10002) [] (np_random_RandomState 0) 0
    (Err.valueError "Infinite loop!") rfl (fun r => rfl) hover
  have hgo := oneExchangeGo_cons_error cfgBig 0 "G" [] [] []
    (np_random_RandomState 0) (Err.valueError "Infinite loop!") rfl herr
  show (oneExchangeGo cfgBig cfgBig.enumerate [] [] (np_random_RandomState 0)).map
      (fun r => r.1) = _
  rw [show cfgBig.enumerate = [(0, "G")] from rfl, hgo]
  rfl

theorem processCandidates_growth (cs : ConfigurationSpace)
    (config : Configuration) (i : Nat) (hpName : String) (array : List Val) :
    ∀ (L : List Int) (st st' : OneExState),
      processCandidates cs config i hpName array L st = Except.ok st' →
      ∃ d, d ≤ L.length
        ∧ st'.number_of_sampled_neighbors = st.number_of_sampled_neighbors + d
        ∧ st'.neighbourhood.length = st.neighbourhood.length + d
  | [], st, st', h => by
    simp only [processCandidates, Except.ok.injEq] at h
    subst h
    exact ⟨0, by omega, by omega, by omega⟩
  | w :: rest, st, st', h => by
    simp only [processCandidates] at h
    cases hcv : candidateVector cs config i hpName array w with
    | none => simp [hcv] at h
    | some v =>
      simp only [hcv] at h
      cases hfv : Configuration.fromVector cs v with
      | none =>
        simp only [hfv] at h
        by_cases hit : st.iteration > 10000
        · simp [hit] at h
        · simp only [hit, if_false, gt_iff_lt] at h
          obtain ⟨d, hd, hs, hn⟩ :=
            processCandidates_growth cs config i hpName array rest _ _ h
          exact ⟨d, by simp only [List.length_cons]; omega,
            by simpa using hs, by simpa using hn⟩
      | some c =>
        simp only [hfv] at h
        by_cases hit : st.iteration > 10000
        · simp [hit] at h
        · simp only [hit, if_false, gt_iff_lt] at h
          obtain ⟨d, hd, hs, hn⟩ :=
            processCandidates_growth cs config i hpName array rest _ _ h
          refine ⟨d + 1, by simp only [List.length_cons]; omega, ?_, ?_⟩
          · have hs' : st'.number_of_sampled_neighbors
                = st.number_of_sampled_neighbors + 1 + d := hs
            omega
          · have hn' : st'.neighbourhood.length
                = (st.neighbourhood ++ [c]).length + d := hn
            simp only [List.length_append, List.length_singleton] at hn'
            omega

theorem paramLoop_infinite_bound (cs : ConfigurationSpace)
    (config : Configuration) (i : Nat) (hpName : String) (array : List Val)
    (hnum : (cs.get_hyperparameter hpName).get_num_neighbors
      = NumNeighbors.infinite)
    (hlen : ∀ (v : Int) (r : RandomState) (k : Nat),
      ((cs.get_hyperparameter hpName).get_neighbors v r (some k) false).1.length
        ≤ k) :
    ∀ (fuel : Nat) (st st' : OneExState),
      st.number_of_sampled_neighbors ≤ 4 →
      paramLoop cs config i hpName array fuel st = Except.ok st' →
      st'.neighbourhood.length
        ≤ st.neighbourhood.length + (4 - st.number_of_sampled_neighbors)
  | 0, st, st', hs4, h => by simp [paramLoop] at h
  | fuel + 1, st, st', hs4, h => by
    simp only [paramLoop, hnum] at h
    by_cases hfull : (4 : Int) - (st.number_of_sampled_neighbors : Int) ≤ 0
    · rw [if_pos hfull] at h
      cases h
      omega
    · rw [if_neg hfull] at h
      cases hpc : processCandidates cs config i hpName array
          ((cs.get_hyperparameter hpName).get_neighbors (arrVal array i) st.rng
            (some ((4 - (st.number_of_sampled_neighbors : Int)).toNat)) false).1
          { st with
              rng := ((cs.get_hyperparameter hpName).get_neighbors
                (arrVal array i) st.rng
                (some ((4 - (st.number_of_sampled_neighbors : Int)).toNat))
                  false).2,
              rounds := st.rounds + 1 } with
      | error e => rw [hpc] at h; exact absurd h (by simp)
      | ok st1 =>
        rw [hpc] at h
        obtain ⟨d, hd, hs, hn⟩ :=
          processCandidates_growth cs config i hpName array _ _ _ hpc
        have hdk : d ≤ (4 - (st.number_of_sampled_neighbors : Int)).toNat :=
          le_trans hd (hlen _ _ _)
        have hs1 : st1.number_of_sampled_neighbors ≤ 4 := by
          simp only at hs
          omega
        have hb := paramLoop_infinite_bound cs config i hpName array hnum hlen
          fuel st1 st' hs1 h
        simp only at hs hn
        omega

/-- The per-parameter contribution bound as a predicate on the loop
result: when the loop returns (rather than raising), the neighbourhood has
grown to at most the stated bound. -/
def okNeighbourhoodLE (r : Except Err OneExState) (bound : Nat) : Prop :=
  match r with
  | Except.ok st => st.neighbourhood.length ≤ bound
  | Except.error _ => True

/-- C7: for a parameter of unbounded neighbor cardinality, one call of the
per-parameter loop of `get_one_exchange_neighbourhood` (entered with its
sampled counter reset to 0) contributes at most 4 configurations to the
result list: each round requests `4 - number_of_sampled_neighbors` samples
(util.py lines 73-78) and only ACCEPTED candidates increment that counter,
so at most 4 sampled neighbors are produced for the parameter per call
(assuming the collaborator contract that `get_neighbors` returns at most
the requested number of values). -/
theorem unbounded_parameter_contributes_at_most_four (cs : ConfigurationSpace)
    (config : Configuration) (i : Nat) (hpName : String) (array : List Val)
    (fuel : Nat) (st : OneExState)
    (hnum : (cs.get_hyperparameter hpName).get_num_neighbors
      = NumNeighbors.infinite)
    (hlen : ∀ (v : Int) (r : RandomState) (k : Nat),
      ((cs.get_hyperparameter hpName).get_neighbors v r (some k) false).1.length
        ≤ k)
    (hs0 : st.number_of_sampled_neighbors = 0) :
    okNeighbourhoodLE (paramLoop cs config i hpName array fuel st)
      (st.neighbourhood.length + 4) := by
  cases h : paramLoop cs config i hpName array fuel st with
  | error e => simp [okNeighbourhoodLE]
  | ok st' =>
    have := paramLoop_infinite_bound cs config i hpName array hnum hlen fuel
      st st' (by omega) h
    simp only [okNeighbourhoodLE]
    omega

/-- Witness for C7 on the concrete unbounded parameter `U`. -/
theorem unbounded_parameter_contributes_at_most_four_witness :
    okNeighbourhoodLE
      (paramLoop csU cfgU 0 "U" [some 0] paramLoopFuel
        ⟨[], 0, 0, ⟨fun _ => 0, 0⟩, 0⟩) (0 + 4) :=
  unbounded_parameter_contributes_at_most_four csU cfgU 0 "U" [some 0]
    paramLoopFuel ⟨[], 0, 0, ⟨fun _ => 0, 0⟩, 0⟩ rfl
    (fun v r k => by
      rw [show csU.get_hyperparameter "U" = hpU from rfl]
      simp [hpU])
    rfl

theorem paramLoop_zero_neighbors (cs : ConfigurationSpace)
    (config : Configuration) (i : Nat) (hpName : String) (array : List Val)
    (hnum : (cs.get_hyperparameter hpName).get_num_neighbors
      = NumNeighbors.finite 0) :
    ∀ (fuel : Nat) (st : OneExState), 0 < fuel →
      paramLoop cs config i hpName array fuel st = Except.ok st := by
  intro fuel st hf
  cases fuel with
  | zero => omega
  | succ f => simp [paramLoop, hnum]

theorem oneExchangeGo_all_zero_neighbors (config : Configuration) :
    ∀ (l : List (Nat × String)),
      (∀ p ∈ l, ((config.get_array.getD p.1 none).isNone = false) →
        (config.configuration_space.get_hyperparameter p.2).get_num_neighbors
          = NumNeighbors.finite 0) →
      ∀ (nb : List Configuration) (stats : List Nat) (rng : RandomState),
        ∃ stats', oneExchangeGo config l nb stats rng
          = Except.ok (nb, stats', rng)
  | [], _, nb, stats, rng => ⟨stats, rfl⟩
  | (i, nm) :: rest, hz, nb, stats, rng => by
    by_cases hpres : (config.get_array.getD i none).isNone
    · obtain ⟨stats', hs'⟩ := oneExchangeGo_all_zero_neighbors config rest
        (fun p hp => hz p (List.mem_cons_of_mem _ hp)) nb stats rng
      exact ⟨stats', by simp only [oneExchangeGo, hpres, if_true]; exact hs'⟩
    · have hnum := hz (i, nm) (List.mem_cons_self _ _)
        (by simp only [Bool.not_eq_true] at hpres; exact hpres)
      have hpl := paramLoop_zero_neighbors config.configuration_space config
        i nm config.get_array hnum paramLoopFuel ⟨nb, 0, 0, rng, 0⟩
        (by norm_num [paramLoopFuel])
      obtain ⟨stats', hs'⟩ := oneExchangeGo_all_zero_neighbors config rest
        (fun p hp => hz p (List.mem_cons_of_mem _ hp)) nb (stats ++ [0]) rng
      refine ⟨stats', ?_⟩
      simp only [oneExchangeGo, hpres, Bool.false_eq_true, if_false, hpl]
      exact hs'

theorem randint_lt (r : RandomState) (lo hi : Nat) (h : lo < hi) :
    (r.randint lo hi).1 < hi := by
  simp only [RandomState.randint, RandomState.next]
  have := Nat.mod_lt (r.stream r.counter) (show 0 < hi - lo by omega)
  omega

theorem drawRandIdx_lt (config : Configuration) (r : RandomState)
    (h : 0 < config.num_hyperparameters) :
    (drawRandIdx config r).1 < config.num_hyperparameters := by
  unfold drawRandIdx
  by_cases h1 : config.num_hyperparameters > 1
  · rw [if_pos h1]
    have := randint_lt r 0 (config.num_hyperparameters - 1) (by omega)
    omega
  · rw [if_neg h1]
    simpa using h

theorem selectionLoop_exhausts (config : Configuration)
    (hlen : config.vector.length = config.num_hyperparameters)
    (hnone : ∀ idx, idx < config.num_hyperparameters →
      ((config.get_array.getD idx none).isSome = true) →
      (config.configuration_space.get_hyperparameter
        (config.configuration_space.get_hyperparameter_by_idx idx)).has_neighbors
        = false) :
    ∀ (fuel it : Nat) (rng : RandomState), it ≤ 10000 → 10001 - it ≤ fuel →
      selectionLoop config fuel it rng
        = Except.error (Err.valueError "Probably caught in an infinite loop.")
  | 0, it, rng, hit, hf => by omega
  | fuel + 1, it, rng, hit, hf => by
    simp only [selectionLoop]
    by_cases hit1 : it + 1 > 10000
    · simp [hit1]
    · have hsel :
          (match config.get_array.getD (drawRandIdx config rng).1 none with
            | some v =>
              let hp_name := config.configuration_space.get_hyperparameter_by_idx
                (drawRandIdx config rng).1
              let hp := config.configuration_space.get_hyperparameter hp_name
              if hp.has_neighbors then some (hp, v) else none
            | none => none) = (none : Option (Hyperparameter × Int)) := by
        cases hval : config.get_array.getD (drawRandIdx config rng).1 none with
        | none => simp
        | some v =>
          have hidx : (drawRandIdx config rng).1 < config.num_hyperparameters := by
            by_contra hge
            rw [List.getD_eq_getElem?_getD, List.getElem?_eq_none (by
              rw [show config.get_array.length = config.num_hyperparameters
                from hlen]
              omega)] at hval
            simp at hval
          simp only
          rw [hnone _ hidx (by rw [hval]; rfl)]
          simp
      simp only [hsel, hit1, if_false]
      exact selectionLoop_exhausts config hlen hnone fuel (it + 1) _
        (by omega) (by omega)

/-- C8: when every ACTIVE parameter — every slot whose encoded value is
present — reports zero neighbor cardinality and no neighbors,
`get_one_exchange_neighbourhood` returns the empty list (every
per-parameter loop breaks immediately; missing slots are skipped) and
`get_random_neighbor` raises the bounded selection loop's fatal
`ValueError('Probably caught in an infinite loop.')` after 10,001 passes
rather than returning or hanging.  Inactive (missing) parameters are
unconstrained: they may report neighbors, since the iteration skips them
and the selection loop never accepts a missing slot. -/
theorem no_neighbors_boundary (config : Configuration) (seed : Nat)
    (hlen : config.vector.length = config.num_hyperparameters)
    (hzero : ∀ p ∈ config.enumerate,
      ((config.get_array.getD p.1 none).isNone = false) →
      (config.configuration_space.get_hyperparameter p.2).get_num_neighbors
        = NumNeighbors.finite 0)
    (hnon : ∀ idx, idx < config.num_hyperparameters →
      ((config.get_array.getD idx none).isSome = true) →
      (config.configuration_space.get_hyperparameter
        (config.configuration_space.get_hyperparameter_by_idx idx)).has_neighbors
        = false) :
    get_one_exchange_neighbourhood config seed = Except.ok []
    ∧ get_random_neighbor config seed
      = Except.error (Err.valueError "Probably caught in an infinite loop.") := by
  constructor
  · obtain ⟨stats', hs'⟩ := oneExchangeGo_all_zero_neighbors config
      config.enumerate hzero [] [] (np_random_RandomState seed)
    show (oneExchangeGo config config.enumerate [] []
      (np_random_RandomState seed)).map (fun r => r.1) = _
    rw [hs']
    rfl
  · have hsel := selectionLoop_exhausts config hlen hnon selectionFuel 0
      (np_random_RandomState seed) (by omega) (by norm_num [selectionFuel])
    show randomNeighborLoop config outerFuel config.get_dictionary
      (np_random_RandomState seed) = _
    rw [show outerFuel = 10001 + 1 from rfl]
    simp only [randomNeighborLoop, hsel]

/-- Witness for C8: a conditional space in which the only ACTIVE parameter
is the zero-neighbor constant `K`, while its gated child `W` — inactive in
this configuration — does have neighbors.  Every active parameter reports
zero cardinality, so the empty neighbourhood and the selection-loop error
follow from the theorem. -/
theorem no_neighbors_boundary_witness :
    get_one_exchange_neighbourhood cfgKW 5 = Except.ok []
    ∧ get_random_neighbor cfgKW 5
      = Except.error (Err.valueError "Probably caught in an infinite loop.") :=
  no_neighbors_boundary cfgKW 5 rfl (by decide) (by decide)

theorem imputeValues_all_present (config : Configuration) :
    ∀ L : List String, (∀ nm ∈ L, (config.value nm).isSome = true) →
      imputeValues config Strategy.default L
        = Except.ok (L.map (fun nm => (nm, config.value nm)))
  | [], _ => rfl
  | nm :: rest, h => by
    obtain ⟨v, hv⟩ := Option.isSome_iff_exists.mp
      (h nm (List.mem_cons_self _ _))
    have ih := imputeValues_all_present config rest
      (fun x hx => h x (List.mem_cons_of_mem _ hx))
    simp only [List.map_cons, imputeValues, hv, ih, Except.map]

theorem lookupVal_map_self (f : String → Val) :
    ∀ (L : List String) (n : String), n ∈ L →
      lookupVal (L.map (fun nm => (nm, f nm))) n = f n
  | [], n, h => by simp at h
  | a :: rest, n, h => by
    simp only [List.map_cons, lookupVal]
    by_cases ha : (a == n)
    · rw [List.find?_cons_of_pos _ (by simpa using ha)]
      have haeq : a = n := by simpa using ha
      subst haeq
      rfl
    · rw [List.find?_cons_of_neg _ (by simpa using ha)]
      have hn : n ∈ rest := by
        rcases List.mem_cons.mp h with rfl | h'
        · simp at ha
        · exact h'
      have ih := lookupVal_map_self f rest n hn
      simpa [lookupVal] using ih

theorem getD_map_lt {α β : Type} (l : List α) (f : α → β) (i : Nat)
    (h : i < l.length) (d : β) (d' : α) :
    (l.map f).getD i d = f (l.getD i d') := by
  rw [List.getD_eq_getElem?_getD, List.getD_eq_getElem?_getD,
    List.getElem?_map, List.getElem?_eq_getElem h]
  simp

theorem get_hyperparameter_name_of_lt (cs : ConfigurationSpace) (nm : String)
    (h : cs.get_idx_by_hyperparameter_name nm < cs.hyperparameters.length) :
    (cs.get_hyperparameter nm).name = nm := by
  have hfi := @List.findIdx_getElem Hyperparameter (fun hp => hp.name == nm)
    cs.hyperparameters h
  unfold ConfigurationSpace.get_hyperparameter
  rw [List.getD_eq_getElem?_getD, List.getElem?_eq_getElem h]
  simpa using hfi

theorem get_hyperparameter_mem_of_lt (cs : ConfigurationSpace) (nm : String)
    (h : cs.get_idx_by_hyperparameter_name nm < cs.hyperparameters.length) :
    cs.get_hyperparameter nm ∈ cs.hyperparameters := by
  unfold ConfigurationSpace.get_hyperparameter
  rw [List.getD_eq_getElem?_getD, List.getElem?_eq_getElem h]
  exact List.getElem_mem h

/-- C9: imputing an already-fully-specified configuration (no missing
values) with the default strategy returns it unchanged — every parameter
keeps its raw value (assuming the collaborator contract that `transform`
inverts `inverse_transform`): the loop of `impute_inactive_values` copies
each present value verbatim and the relaxed constructor rebuilds the same
raw-value mapping. -/
theorem impute_default_idempotent (config : Configuration)
    (hfull : ∀ nm ∈ config.names, (config.value nm).isSome = true)
    (hrt : ∀ hp ∈ config.configuration_space.hyperparameters,
      ∀ z : Int, hp.transform (hp.inverse_transform z) = z) :
    (impute_inactive_values config Strategy.default).map
        Configuration.get_dictionary
      = Except.ok config.get_dictionary := by
  have hval : ∀ nm ∈ config.names,
      (Configuration.fromValuesRelaxed config.configuration_space
        (config.names.map (fun nm' => (nm', config.value nm')))).value nm
      = config.value nm := by
    intro nm hnm
    obtain ⟨hp0, hp0mem, hp0name⟩ := List.mem_map.mp hnm
    have hidx : config.configuration_space.get_idx_by_hyperparameter_name nm
        < config.configuration_space.hyperparameters.length :=
      List.findIdx_lt_length_of_exists ⟨hp0, hp0mem, by simp [hp0name]⟩
    have hname := get_hyperparameter_name_of_lt config.configuration_space nm
      hidx
    have hmem' := get_hyperparameter_mem_of_lt config.configuration_space nm
      hidx
    show ((Configuration.fromValuesRelaxed config.configuration_space
        (config.names.map (fun nm' => (nm', config.value nm')))).vector.getD
          (config.configuration_space.get_idx_by_hyperparameter_name nm)
          none).map
        (config.configuration_space.get_hyperparameter nm).transform
      = config.value nm
    have hvec : (Configuration.fromValuesRelaxed config.configuration_space
        (config.names.map (fun nm' => (nm', config.value nm')))).vector.getD
          (config.configuration_space.get_idx_by_hyperparameter_name nm) none
        = (lookupVal
            (config.names.map (fun nm' => (nm', config.value nm')))
            (config.configuration_space.get_hyperparameter nm).name).map
          (config.configuration_space.get_hyperparameter nm).inverse_transform := by
      show (List.map _ config.configuration_space.hyperparameters).getD _ none = _
      rw [getD_map_lt _ _ _ hidx none dummyHp]
      rfl
    rw [hvec, hname,
      lookupVal_map_self (fun nm' => config.value nm') config.names nm hnm]
    cases hv : config.value nm with
    | none => rfl
    | some v =>
      simp [hrt (config.configuration_space.get_hyperparameter nm) hmem' v]
  unfold impute_inactive_values
  rw [imputeValues_all_present config config.names hfull]
  show Except.ok ((Configuration.fromValuesRelaxed config.configuration_space
      (config.names.map (fun nm => (nm, config.value nm)))).get_dictionary)
    = Except.ok config.get_dictionary
  congr 1
  show config.names.map (fun nm =>
      (nm, (Configuration.fromValuesRelaxed config.configuration_space
        (config.names.map (fun nm' => (nm', config.value nm')))).value nm))
    = config.names.map (fun nm => (nm, config.value nm))
  exact List.map_congr_left (fun nm hnm => by rw [hval nm hnm])

/-- Witness for C9 on the fully-specified one-parameter configuration. -/
theorem impute_default_idempotent_witness :
    (impute_inactive_values cfgK Strategy.default).map
        Configuration.get_dictionary
      = Except.ok cfgK.get_dictionary :=
  impute_default_idempotent cfgK (by decide)
    (fun hp hm z => by
      have : hp = hpK := by simpa [cfgK, csK] using hm
      subst this
      rfl)

end CSUtil


